import Mathlib

/-!
Shallow embedding of the pypsu PSU archive codec (src/psu/header.py,
src/psu/entry.py, src/psu/psu.py, src/psu/exceptions.py).

Modelling conventions:
* Python `bytes` values are `List Nat` (each element a byte value).
* Python `str` values are represented by their UTF-8 byte sequences
  (`List Nat`); `str.encode('UTF-8')` / `bytes.decode('UTF-8')` are the
  identity on valid UTF-8 byte sequences, and `bytes.decode` raising
  `UnicodeDecodeError` on invalid input is modelled by an explicit
  UTF-8 validity check (`utf8Valid`, below).
* Python exceptions are modelled with `Except PSUError`.
* `struct.pack`/`struct.unpack` with format `'<HHI6BHHHI6BH'` are modelled
  by explicit little-endian byte encoders/decoders.  `struct.pack` rejects
  out-of-range field values at runtime; in-range-ness is carried as the
  well-formedness predicates used by the round-trip theorems, and the
  encoders truncate (`% 256`) exactly where `struct.pack` would have
  raised.
* Python `datetime` objects enforce calendar validity on construction;
  `DateTime` is a plain structure and `datetime(...)`'s validation is the
  explicit `mkDatetime` smart constructor (CPython bounds: year 1..9999,
  month 1..12, day 1..days-in-month, hour ≤ 23, minute ≤ 59, second ≤ 59).
-/

set_option maxHeartbeats 1000000
set_option maxRecDepth 100000

namespace PSUModel

/-- Decidable equality of `Except` results, used to evaluate the codec on
concrete buffers. -/
instance {ε α : Type} [DecidableEq ε] [DecidableEq α] :
    DecidableEq (Except ε α) := fun a b =>
  match a, b with
  | .error x, .error y =>
    if h : x = y then .isTrue (by rw [h])
    else .isFalse (by intro hc; cases hc; exact h rfl)
  | .error _, .ok _ => .isFalse (by intro hc; cases hc)
  | .ok _, .error _ => .isFalse (by intro hc; cases hc)
  | .ok x, .ok y =>
    if h : x = y then .isTrue (by rw [h])
    else .isFalse (by intro hc; cases hc; exact h rfl)

/-- Read one byte (u8) at index `i` of a byte list (out of range reads 0;
all callers check lengths first, mirroring `struct.unpack`'s size check). -/
def readU8 (l : List Nat) (i : Nat) : Nat := l.getD i 0

/-- Read a little-endian u16 at index `i` (format char `H`). -/
def readU16 (l : List Nat) (i : Nat) : Nat :=
  l.getD i 0 + 256 * l.getD (i + 1) 0

/-- Read a little-endian u32 at index `i` (format char `I`). -/
def readU32 (l : List Nat) (i : Nat) : Nat :=
  l.getD i 0 + 256 * l.getD (i + 1) 0 + 65536 * l.getD (i + 2) 0 +
    16777216 * l.getD (i + 3) 0

/-- The calendar date-time payload of Python's `datetime` that the PSU
header stores (`header.py` uses no sub-second fields). -/
structure DateTime where
  year : Nat
  month : Nat
  day : Nat
  hour : Nat
  minute : Nat
  second : Nat
deriving DecidableEq, Repr

/-- Gregorian leap-year rule, as used by CPython's `datetime`. -/
def isLeapYear (y : Nat) : Bool :=
  y % 4 == 0 && (y % 100 != 0 || y % 400 == 0)

/-- Number of days in a month, as validated by CPython's `datetime`. -/
def daysInMonth (y m : Nat) : Nat :=
  if m = 2 then (if isLeapYear y then 29 else 28)
  else if m = 4 ∨ m = 6 ∨ m = 9 ∨ m = 11 then 30
  else 31

/-- The validity condition CPython's `datetime.__new__` enforces on the
fields the PSU header uses (MINYEAR = 1, MAXYEAR = 9999). -/
def DateTime.Valid (t : DateTime) : Prop :=
  1 ≤ t.year ∧ t.year ≤ 9999 ∧ 1 ≤ t.month ∧ t.month ≤ 12 ∧
    1 ≤ t.day ∧ t.day ≤ daysInMonth t.year t.month ∧
    t.hour ≤ 23 ∧ t.minute ≤ 59 ∧ t.second ≤ 59

instance (t : DateTime) : Decidable t.Valid := by
  unfold DateTime.Valid; infer_instance

/-- Errors raised by the codec (src/psu/exceptions.py plus the Python
builtin exceptions the source lets escape). -/
inductive PSUError where
  /-- `struct.error` from `struct.unpack` when the buffer is not exactly
  32 bytes; the spec's `MalformedHeader`. -/
  | malformedHeader : PSUError
  /-- `ValueError` from `datetime(...)` on out-of-range calendar fields. -/
  | valueError : PSUError
  /-- `UnicodeDecodeError` from `bytes.decode('UTF-8')`. -/
  | unicodeDecodeError : PSUError
  /-- `UnknownEntryTypeException(type, entryName)`. -/
  | unknownEntryType (typeValue : Nat) (name : List Nat) : PSUError
deriving DecidableEq, Repr

/-- `datetime(year, month, day, hour, minute, second)`: CPython validates
the fields and raises `ValueError` when any is out of range. -/
def mkDatetime (year month day hour minute second : Nat) :
    Except PSUError DateTime :=
  let t : DateTime := ⟨year, month, day, hour, minute, second⟩
  if t.Valid then .ok t else .error .valueError

/-- src/psu/header.py `Header` (field order mirrors `Header.__init__`). -/
structure Header where
  type : Nat
  size : Nat
  created : DateTime
  modified : DateTime
  sectorAddress : Nat
  unk1 : Nat
  unk2 : Nat
  unk3 : Nat
deriving DecidableEq, Repr

/-- src/psu/entry.py `Type.DIRECTORY = 0x8427`. -/
def EType.DIRECTORY : Nat := 0x8427

/-- src/psu/entry.py `Type.FILE = 0x8497`. -/
def EType.FILE : Nat := 0x8497

/-- `Header.deserialize` (header.py lines 33-53): `struct.unpack` of the
32-byte little-endian record `'<HHI6BHHHI6BH'` (raising on any other
buffer size), then construction of the two `datetime` values (created
first, then modified), then the `Header`.  Wire offsets: type@0, unk1@2,
size@4, created zero@8/sec@9/min@10/hour@11/day@12/month@13/year@14,
sector@16, unk2@18, unk3@20, modified zero@24/sec@25/min@26/hour@27/
day@28/month@29/year@30. -/
def Header.deserialize (data : List Nat) : Except PSUError Header :=
  if data.length = 32 then
    match mkDatetime (readU16 data 14) (readU8 data 13) (readU8 data 12)
        (readU8 data 11) (readU8 data 10) (readU8 data 9) with
    | .error e => .error e
    | .ok created =>
      match mkDatetime (readU16 data 30) (readU8 data 29) (readU8 data 28)
          (readU8 data 27) (readU8 data 26) (readU8 data 25) with
      | .error e => .error e
      | .ok modified =>
        .ok { type := readU16 data 0, size := readU32 data 4,
              created := created, modified := modified,
              sectorAddress := readU16 data 16, unk1 := readU16 data 2,
              unk2 := readU16 data 18, unk3 := readU32 data 20 }
  else .error .malformedHeader

/-- `Header.serialize` (header.py lines 86-114): `struct.pack` of the same
layout; the leading byte of each timestamp sub-record is written as 0. -/
def Header.serialize (h : Header) : List Nat :=
  [h.type % 256, h.type / 256 % 256,
   h.unk1 % 256, h.unk1 / 256 % 256,
   h.size % 256, h.size / 256 % 256, h.size / 65536 % 256,
     h.size / 16777216 % 256,
   0, h.created.second % 256, h.created.minute % 256, h.created.hour % 256,
     h.created.day % 256, h.created.month % 256,
   h.created.year % 256, h.created.year / 256 % 256,
   h.sectorAddress % 256, h.sectorAddress / 256 % 256,
   h.unk2 % 256, h.unk2 / 256 % 256,
   h.unk3 % 256, h.unk3 / 256 % 256, h.unk3 / 65536 % 256,
     h.unk3 / 16777216 % 256,
   0, h.modified.second % 256, h.modified.minute % 256,
     h.modified.hour % 256, h.modified.day % 256, h.modified.month % 256,
   h.modified.year % 256, h.modified.year / 256 % 256]

theorem Header.length_serialize (h : Header) :
    (Header.serialize h).length = 32 := rfl

/-- In-range-ness of the header fields for `struct.pack`, together with the
`datetime` class invariant of the two timestamps. -/
def Header.WF (h : Header) : Prop :=
  h.type < 65536 ∧ h.unk1 < 65536 ∧ h.size < 4294967296 ∧
    h.sectorAddress < 65536 ∧ h.unk2 < 65536 ∧ h.unk3 < 4294967296 ∧
    h.created.Valid ∧ h.modified.Valid

instance (h : Header) : Decidable h.WF := by
  unfold Header.WF; infer_instance

theorem roundU16 {v : Nat} (h : v < 65536) :
    v % 256 + 256 * (v / 256 % 256) = v := by omega

theorem roundU32 {v : Nat} (h : v < 4294967296) :
    v % 256 + 256 * (v / 256 % 256) + 65536 * (v / 65536 % 256) +
      16777216 * (v / 16777216 % 256) = v := by omega

theorem mkDatetime_valid (t : DateTime) (h : t.Valid) :
    mkDatetime t.year t.month t.day t.hour t.minute t.second = .ok t := by
  unfold mkDatetime
  rw [if_pos h]

theorem daysInMonth_le (y m : Nat) : daysInMonth y m ≤ 31 := by
  unfold daysInMonth
  split
  · split <;> omega
  · split <;> omega

theorem Header.deserialize_serialize (h : Header) (hwf : h.WF) :
    Header.deserialize (Header.serialize h) = .ok h := by
  obtain ⟨ht, hu1, hs, hsec, hu2, hu3, hc, hm⟩ := hwf
  obtain ⟨c1, c2, c3, c4, c5, c6, c7, c8, c9⟩ := hc
  obtain ⟨m1, m2, m3, m4, m5, m6, m7, m8, m9⟩ := hm
  have e14 : readU16 (Header.serialize h) 14 =
      h.created.year % 256 + 256 * (h.created.year / 256 % 256) := rfl
  have e13 : readU8 (Header.serialize h) 13 = h.created.month % 256 := rfl
  have e12 : readU8 (Header.serialize h) 12 = h.created.day % 256 := rfl
  have e11 : readU8 (Header.serialize h) 11 = h.created.hour % 256 := rfl
  have e10 : readU8 (Header.serialize h) 10 = h.created.minute % 256 := rfl
  have e9 : readU8 (Header.serialize h) 9 = h.created.second % 256 := rfl
  have f30 : readU16 (Header.serialize h) 30 =
      h.modified.year % 256 + 256 * (h.modified.year / 256 % 256) := rfl
  have f29 : readU8 (Header.serialize h) 29 = h.modified.month % 256 := rfl
  have f28 : readU8 (Header.serialize h) 28 = h.modified.day % 256 := rfl
  have f27 : readU8 (Header.serialize h) 27 = h.modified.hour % 256 := rfl
  have f26 : readU8 (Header.serialize h) 26 = h.modified.minute % 256 := rfl
  have f25 : readU8 (Header.serialize h) 25 = h.modified.second % 256 := rfl
  have g0 : readU16 (Header.serialize h) 0 =
      h.type % 256 + 256 * (h.type / 256 % 256) := rfl
  have g2 : readU16 (Header.serialize h) 2 =
      h.unk1 % 256 + 256 * (h.unk1 / 256 % 256) := rfl
  have g4 : readU32 (Header.serialize h) 4 =
      h.size % 256 + 256 * (h.size / 256 % 256) +
        65536 * (h.size / 65536 % 256) +
        16777216 * (h.size / 16777216 % 256) := rfl
  have g16 : readU16 (Header.serialize h) 16 =
      h.sectorAddress % 256 + 256 * (h.sectorAddress / 256 % 256) := rfl
  have g18 : readU16 (Header.serialize h) 18 =
      h.unk2 % 256 + 256 * (h.unk2 / 256 % 256) := rfl
  have g20 : readU32 (Header.serialize h) 20 =
      h.unk3 % 256 + 256 * (h.unk3 / 256 % 256) +
        65536 * (h.unk3 / 65536 % 256) +
        16777216 * (h.unk3 / 16777216 % 256) := rfl
  unfold Header.deserialize
  rw [if_pos (Header.length_serialize h)]
  rw [e14, e13, e12, e11, e10, e9, f30, f29, f28, f27, f26, f25,
    g0, g2, g4, g16, g18, g20]
  rw [roundU16 (by omega : h.created.year < 65536),
    Nat.mod_eq_of_lt (by omega : h.created.month < 256),
    Nat.mod_eq_of_lt (by
      have := daysInMonth_le h.created.year h.created.month
      omega : h.created.day < 256),
    Nat.mod_eq_of_lt (by omega : h.created.hour < 256),
    Nat.mod_eq_of_lt (by omega : h.created.minute < 256),
    Nat.mod_eq_of_lt (by omega : h.created.second < 256),
    roundU16 (by omega : h.modified.year < 65536),
    Nat.mod_eq_of_lt (by omega : h.modified.month < 256),
    Nat.mod_eq_of_lt (by
      have := daysInMonth_le h.modified.year h.modified.month
      omega : h.modified.day < 256),
    Nat.mod_eq_of_lt (by omega : h.modified.hour < 256),
    Nat.mod_eq_of_lt (by omega : h.modified.minute < 256),
    Nat.mod_eq_of_lt (by omega : h.modified.second < 256),
    roundU16 ht, roundU16 hu1, roundU32 hs, roundU16 hsec, roundU16 hu2,
    roundU32 hu3]
  rw [mkDatetime_valid h.created ⟨c1, c2, c3, c4, c5, c6, c7, c8, c9⟩,
    mkDatetime_valid h.modified ⟨m1, m2, m3, m4, m5, m6, m7, m8, m9⟩]

/-- The byte automaton of CPython's strict `'UTF-8'` codec.  `exp` is the
list of `(lo, hi)` ranges the next bytes must fall in to finish the
current multi-byte sequence (empty between characters).  At a lead byte
the expected continuation ranges are pushed: two-byte leads `0xC2..0xDF`;
three-byte leads `0xE0` (second byte `0xA0..0xBF`, excluding overlong
forms), `0xE1..0xEC`/`0xEE`/`0xEF` (second byte `0x80..0xBF`), `0xED`
(second byte `0x80..0x9F`, excluding surrogates); four-byte leads `0xF0`
(second byte `0x90..0xBF`), `0xF1..0xF3`, and `0xF4` (second byte
`0x80..0x8F`, excluding code points above `U+10FFFF`); anything else
(`0x80..0xC1`, `0xF5..`) is an invalid lead. -/
def utf8Go : List (Nat × Nat) → List Nat → Bool
  | [], [] => true
  | _ :: _, [] => false
  | [], b :: rest =>
    if b ≤ 0x7F then utf8Go [] rest
    else if 0xC2 ≤ b ∧ b ≤ 0xDF then utf8Go [(0x80, 0xBF)] rest
    else if b = 0xE0 then utf8Go [(0xA0, 0xBF), (0x80, 0xBF)] rest
    else if (0xE1 ≤ b ∧ b ≤ 0xEC) ∨ b = 0xEE ∨ b = 0xEF then
      utf8Go [(0x80, 0xBF), (0x80, 0xBF)] rest
    else if b = 0xED then utf8Go [(0x80, 0x9F), (0x80, 0xBF)] rest
    else if b = 0xF0 then utf8Go [(0x90, 0xBF), (0x80, 0xBF), (0x80, 0xBF)] rest
    else if 0xF1 ≤ b ∧ b ≤ 0xF3 then
      utf8Go [(0x80, 0xBF), (0x80, 0xBF), (0x80, 0xBF)] rest
    else if b = 0xF4 then utf8Go [(0x80, 0x8F), (0x80, 0xBF), (0x80, 0xBF)] rest
    else false
  | (lo, hi) :: exp, b :: rest =>
    if lo ≤ b ∧ b ≤ hi then utf8Go exp rest else false

/-- Validity of a byte sequence under CPython's strict `'UTF-8'` codec:
`bytes.decode('UTF-8')` succeeds exactly when this holds. -/
def utf8Valid (l : List Nat) : Bool := utf8Go [] l

/-- `str.rstrip('\x00')` at the byte level: in valid UTF-8 the NUL
character is exactly the 0 byte, so stripping trailing NUL characters
from the decoded string strips trailing 0 bytes. -/
def rstripZeros (l : List Nat) : List Nat :=
  (l.reverse.dropWhile (· == 0)).reverse

/-- `Entry.__getName` (entry.py lines 67-77): `data[0:448].decode('UTF-8')`
(raising `UnicodeDecodeError` on invalid input) then `rstrip('\x00')`. -/
def getName (data : List Nat) : Except PSUError (List Nat) :=
  let field := data.take 448
  if utf8Valid field then .ok (rstripZeros field) else .error .unicodeDecodeError

/-- `str.ljust(n, '\x00')` / `bytes.ljust(n, b'\x00')`: pad on the right
with zero bytes up to length `n` (longer input is returned unchanged). -/
def ljustZeros (l : List Nat) (n : Nat) : List Nat :=
  l ++ List.replicate (n - l.length) 0

/-- The two concrete Python classes deriving `Entry` (entry.py). -/
inductive Kind where
  | file : Kind
  | directory : Kind
deriving DecidableEq, Repr

/-- An in-memory entry object (entry.py): the shared attributes `name`,
`header`, `padding`, the class tag (`File` / `Directory`), and the
`content` attribute, which only `File.__init__` (and `PSU.write`) set —
`none` models its absence on a `Directory` object. -/
structure Entry where
  kind : Kind
  name : List Nat
  header : Header
  padding : List Nat
  content : Option (List Nat)
deriving DecidableEq, Repr

/-- `File.getContentPaddingSize` (entry.py lines 201-212), with
`File.PAGE_SIZE = 1024`. -/
def File.getContentPaddingSize (contentSize : Nat) : Nat :=
  let remaining := 1024 - contentSize % 1024
  if remaining = 1024 then 0 else remaining

/-- `File(entryName, data)` as constructed by `PSU.write` (psu.py line
118): fresh `Header(Type.FILE, len(content))` with default timestamps
(the module evaluates `datetime.now()` once for the defaults; modelled
as a fixed valid timestamp), zero `sectorAddress`/`unk*`, and the default
32 zero padding bytes. -/
def File.new (name content : List Nat) : Entry :=
  { kind := .file, name := name,
    header := { type := EType.FILE, size := content.length,
                created := ⟨2024, 1, 1, 0, 0, 0⟩,
                modified := ⟨2024, 1, 1, 0, 0, 0⟩,
                sectorAddress := 0, unk1 := 0, unk2 := 0, unk3 := 0 },
    padding := List.replicate 32 0, content := some content }

/-- `Entry.deserialize` (entry.py lines 15-53): `Header.deserialize` of
`data[0:32]` (with `Header.SIZE = 32`), the 32 padding bytes
(`Entry.PADDING_SIZE = 32`), the 448-byte name field
(`Entry.NAME_SIZE = 448`, UTF-8 decoded and right-trimmed of NUL), then
dispatch on `header.type`: `Type.FILE` runs `File.deserialize` (content
is the next `header.size` bytes, consumed count skips the page-alignment
padding), `Type.DIRECTORY` runs `Directory.deserialize` (no payload),
anything else raises `UnknownEntryTypeException(header.type, name)`. -/
def Entry.deserialize (data : List Nat) :
    Except PSUError (Entry × Nat) :=
  match Header.deserialize (data.take 32) with
  | .error e => .error e
  | .ok header =>
    let padding := (data.drop 32).take 32
    match getName ((data.drop 64).take 448) with
    | .error e => .error e
    | .ok name =>
      if header.type = EType.FILE then
        let content := (data.drop 512).take header.size
        .ok (⟨.file, name, header, padding, some content⟩,
          512 + (header.size + File.getContentPaddingSize header.size))
      else if header.type = EType.DIRECTORY then
        .ok (⟨.directory, name, header, padding, none⟩, 512 + 0)
      else .error (.unknownEntryType header.type name)

/-- `Entry.serialize` for the base layout (entry.py lines 95-104):
`header.serialize() + padding + name.encode('UTF-8').ljust(448, b'\x00')`. -/
def Entry.baseSerialize (e : Entry) : List Nat :=
  Header.serialize e.header ++ e.padding ++ ljustZeros e.name 448

/-- Serialization of one entry object, returning the mutated object
alongside the bytes.  A `File` (entry.py lines 232-247) first assigns
`self.header.size = len(self.content)`, then emits the base layout, then
(when the size is positive) the content and its page-alignment zero
padding; a `Directory` uses the base `Entry.serialize` unchanged. -/
def Entry.serialize (e : Entry) : Entry × List Nat :=
  match e.kind with
  | .file =>
    let c := e.content.getD []
    let e' := { e with header := { e.header with size := c.length } }
    ( e',
      if c.length > 0 then
        e'.baseSerialize ++ c ++
          List.replicate (File.getContentPaddingSize c.length) 0
      else e'.baseSerialize )
  | .directory => (e, e.baseSerialize)

/-- The directory-size resolution block of `PSU.save` (psu.py lines
144-151): entries whose `header.type` is `Type.DIRECTORY` get
`header.size = 0` when named `"."` or `".."` (bytes `[46]` / `[46, 46]`)
and `header.size = len(self.entries) - 1` otherwise; all other entries
are left alone. -/
def PSU.resolveDirSize (total : Nat) (e : Entry) : Entry :=
  if e.header.type = EType.DIRECTORY then
    if e.name = [46] ∨ e.name = [46, 46] then
      { e with header := { e.header with size := 0 } }
    else
      { e with header := { e.header with size := total - 1 } }
  else e

/-- One iteration of the `PSU.save` loop body: resolve the directory
size, then serialize (the entry object is mutated in place in Python;
here the updated object is returned). -/
def PSU.saveOne (total : Nat) (e : Entry) : Entry × List Nat :=
  Entry.serialize (PSU.resolveDirSize total e)

/-- The `PSU.save` loop (psu.py lines 142-154) over a list of entries:
`len(self.entries)` is constant throughout (the loop never changes the
list, only the entry objects), so it is passed in as `total`. -/
def PSU.saveLoop (total : Nat) : List Entry → List Entry × List Nat
  | [] => ([], [])
  | e :: es =>
    ((PSU.saveOne total e).1 :: (PSU.saveLoop total es).1,
     (PSU.saveOne total e).2 ++ (PSU.saveLoop total es).2)

/-- `PSU.save` (psu.py lines 133-158) minus the file write: produces the
mutated entry list and the concatenated bytes. -/
def PSU.save (entries : List Entry) : List Entry × List Nat :=
  PSU.saveLoop entries.length entries

/-- Every successful `Entry.deserialize` consumes at least the 512 fixed
bytes (32 header + 32 padding + 448 name). -/
theorem Entry.deserialize_size_ge {data : List Nat} {e : Entry} {n : Nat}
    (h : Entry.deserialize data = .ok (e, n)) : 512 ≤ n := by
  unfold Entry.deserialize at h
  split at h
  · exact absurd h (by simp)
  · simp only at h
    split at h
    · exact absurd h (by simp)
    · split at h
      · simp only [Except.ok.injEq, Prod.mk.injEq] at h
        omega
      · split at h
        · simp only [Except.ok.injEq, Prod.mk.injEq] at h
          omega
        · exact absurd h (by simp)

/-- `PSU.__parse` (psu.py lines 49-67): starting at offset 0, repeatedly
deserialize the next entry from `data[offset:]` and advance by the
consumed byte count while `offset < len(data)`; recursion on the
remaining suffix models the offset loop. -/
def parseEntries (data : List Nat) : Except PSUError (List Entry) :=
  if h : data = [] then .ok []
  else
    match hde : Entry.deserialize data with
    | .error e => .error e
    | .ok (entry, size) =>
      match parseEntries (data.drop size) with
      | .error e => .error e
      | .ok rest => .ok (entry :: rest)
termination_by data.length
decreasing_by
  have h512 := Entry.deserialize_size_ge hde
  have hlen : 0 < data.length := List.length_pos.mpr h
  simp only [List.length_drop]
  omega

/-- `PSU.__index` (psu.py lines 69-85) with no type filter, as used by
`PSU.write` via `has`/`get`: index of the first entry whose name
matches, `none` when absent. -/
def PSU.index? (entries : List Entry) (name : List Nat) : Option Nat :=
  match entries with
  | [] => none
  | e :: es =>
    if e.name = name then some 0 else (PSU.index? es name).map (· + 1)

/-- `PSU.write` (psu.py lines 95-120): when an entry with the given name
exists, the first such entry object gets `entry.content = data` and
`entry.header.size = len(data)` in place; otherwise `File(entryName,
data)` is appended.  (String data is UTF-8 encoded first; data is
modelled as its byte sequence.) -/
def PSU.write (entries : List Entry) (name data : List Nat) : List Entry :=
  match entries with
  | [] => [File.new name data]
  | e :: es =>
    if e.name = name then
      { e with
        content := some data,
        header := { e.header with size := data.length } } :: es
    else e :: PSU.write es name data

theorem utf8Go_nil_replicate (k : Nat) : utf8Go [] (List.replicate k 0) = true := by
  induction k with
  | zero => rfl
  | succ n ih => simpa [List.replicate_succ, utf8Go] using ih

theorem utf8Go_append_zeros (k : Nat) :
    ∀ (l : List Nat) (exp : List (Nat × Nat)), utf8Go exp l = true →
      utf8Go exp (l ++ List.replicate k 0) = true := by
  intro l
  induction l with
  | nil =>
    intro exp h
    cases exp with
    | nil => exact utf8Go_nil_replicate k
    | cons e es => exact absurd h (by simp [utf8Go])
  | cons b rest ih =>
    intro exp h
    cases exp with
    | nil =>
      rw [List.cons_append]
      rw [utf8Go] at h ⊢
      split_ifs at h ⊢ <;> exact ih _ h
    | cons e es =>
      obtain ⟨lo, hi⟩ := e
      rw [List.cons_append]
      rw [utf8Go] at h ⊢
      split_ifs at h ⊢
      exact ih _ h

/-- A Python `str` name, once NUL-padded on the wire, is still valid
UTF-8: the pad bytes are NUL characters. -/
theorem utf8Valid_append_zeros (k : Nat) (l : List Nat)
    (h : utf8Valid l = true) :
    utf8Valid (l ++ List.replicate k 0) = true :=
  utf8Go_append_zeros k l [] h

theorem dropWhileZero_replicate_append (k : Nat) (m : List Nat) :
    List.dropWhile (· == 0) (List.replicate k 0 ++ m) =
      List.dropWhile (· == 0) m := by
  induction k with
  | zero => rfl
  | succ n ih => simpa [List.replicate_succ, List.dropWhile] using ih

theorem rstripZeros_append_replicate (l : List Nat) (k : Nat) :
    rstripZeros (l ++ List.replicate k 0) = rstripZeros l := by
  unfold rstripZeros
  rw [List.reverse_append, List.reverse_replicate,
    dropWhileZero_replicate_append]

/-- A name with no trailing NUL byte is left unchanged by
`rstrip('\x00')`. -/
theorem rstripZeros_eq_self (l : List Nat) (h : l.getLast? ≠ some 0) :
    rstripZeros l = l := by
  unfold rstripZeros
  cases hr : l.reverse with
  | nil =>
    have : l = [] := by
      have := congrArg List.reverse hr
      simpa using this
    simp [this]
  | cons a t =>
    have hha : l.getLast? = some a := by
      rw [List.getLast?_eq_head?_reverse, hr]
      rfl
    have ha : (a == 0) = false := by
      rw [hha] at h
      simp only [beq_eq_false_iff_ne, ne_eq]
      intro hc
      exact h (by rw [hc])
    rw [List.dropWhile_cons, ha]
    simp only [Bool.false_eq_true, if_false]
    rw [← hr, List.reverse_reverse]

theorem getName_ljust (l : List Nat) (hv : utf8Valid l = true)
    (hlast : l.getLast? ≠ some 0) (hlen : l.length ≤ 448) :
    getName (ljustZeros l 448) = .ok l := by
  unfold getName ljustZeros
  have hfl : (l ++ List.replicate (448 - l.length) 0).length = 448 := by
    simp [List.length_append, List.length_replicate]
    omega
  rw [List.take_of_length_le (by omega)]
  rw [if_pos (utf8Valid_append_zeros _ l hv)]
  rw [rstripZeros_append_replicate, rstripZeros_eq_self l hlast]

/-- C3: for every content length `n` the trailing zero-pad computed by
`File.getContentPaddingSize` equals `(1024 - n % 1024) % 1024`; in
particular lengths 0, 1, 1023, 1024, 1025 and 2048 give pads 0, 1023, 1,
0, 1023 and 0, so an exact multiple of 1024 (including 0) gets no
padding rather than a full page. -/
theorem c3_content_padding : ∀ n : Nat,
    File.getContentPaddingSize n = (1024 - n % 1024) % 1024 ∧
    File.getContentPaddingSize 0 = 0 ∧
    File.getContentPaddingSize 1 = 1023 ∧
    File.getContentPaddingSize 1023 = 1 ∧
    File.getContentPaddingSize 1024 = 0 ∧
    File.getContentPaddingSize 1025 = 1023 ∧
    File.getContentPaddingSize 2048 = 0 := by
  intro n
  refine ⟨?_, by decide, by decide, by decide, by decide, by decide, by decide⟩
  show (if 1024 - n % 1024 = 1024 then 0 else 1024 - n % 1024) = _
  split <;> omega

/-- C5: header decode of any buffer of fewer than 32 bytes fails with the
insufficient-bytes error (the spec's `MalformedHeader`, `struct.error` in
the source) and not with any other error or a success. -/
theorem c5_short_header : ∀ data : List Nat, data.length < 32 →
    Header.deserialize data = .error .malformedHeader := by
  intro data h
  unfold Header.deserialize
  rw [if_neg (by omega)]

theorem c5_short_header_witness :
    ([] : List Nat).length < 32 ∧
      Header.deserialize [] = .error .malformedHeader :=
  ⟨by decide, c5_short_header [] (by decide)⟩

/-- C7: serializing a `File` entry first assigns `header.size` from the
current content length — whatever size the header held before — and the
emitted bytes start with the serialization of that updated header, so at
the moment the bytes are emitted `header.size` equals the content
length. -/
theorem c7_file_size_assign :
    ∀ (name content : List Nat) (header : Header) (padding : List Nat),
    (Entry.serialize ⟨.file, name, header, padding, some content⟩).1 =
      ⟨.file, name, { header with size := content.length }, padding,
        some content⟩ ∧
    (Entry.serialize ⟨.file, name, header, padding, some content⟩).2 =
      Header.serialize { header with size := content.length } ++ padding ++
        ljustZeros name 448 ++
        (if 0 < content.length then
          content ++
            List.replicate (File.getContentPaddingSize content.length) 0
        else []) := by
  intro name content header padding
  constructor
  · rfl
  · simp only [Entry.serialize, Entry.baseSerialize, Option.getD_some,
      gt_iff_lt]
    split <;> simp_all [List.append_assoc]

theorem PSU.saveLoop_spec (total : Nat) (es : List Entry) :
    PSU.saveLoop total es =
      (es.map (fun e => (PSU.saveOne total e).1),
       (es.map (fun e => (PSU.saveOne total e).2)).flatten) := by
  induction es with
  | nil => rfl
  | cons e es ih => simp [PSU.saveLoop, ih]

/-- Resolving-then-serializing an already resolved-and-serialized entry
changes nothing: the resolution depends only on the name and type (which
serialization preserves) and rewrites the same size, and a `File` entry's
size is overwritten from the unchanged content either way. -/
theorem PSU.saveOne_idem (total : Nat) (e : Entry) :
    PSU.saveOne total (PSU.saveOne total e).1 = PSU.saveOne total e := by
  obtain ⟨k, n, hdr, p, c⟩ := e
  obtain ⟨ty, sz, cr, mo, sa, u1, u2, u3⟩ := hdr
  cases k with
  | file =>
    by_cases hty : ty = EType.DIRECTORY
    · by_cases hn : n = [46] ∨ n = [46, 46]
      · simp only [PSU.saveOne, PSU.resolveDirSize, Entry.serialize]
        rw [if_pos hty, if_pos hn]
        simp only [Entry.serialize]
        rw [if_pos hty, if_pos hn]
      · simp only [PSU.saveOne, PSU.resolveDirSize, Entry.serialize]
        rw [if_pos hty, if_neg hn]
        simp only [Entry.serialize]
        rw [if_pos hty, if_neg hn]
    · simp only [PSU.saveOne, PSU.resolveDirSize, Entry.serialize]
      rw [if_neg hty]
      simp only [Entry.serialize]
      rw [if_neg hty]
  | directory =>
    by_cases hty : ty = EType.DIRECTORY
    · by_cases hn : n = [46] ∨ n = [46, 46]
      · simp only [PSU.saveOne, PSU.resolveDirSize, Entry.serialize]
        rw [if_pos hty, if_pos hn]
        rw [if_pos hty, if_pos hn]
      · simp only [PSU.saveOne, PSU.resolveDirSize, Entry.serialize]
        rw [if_pos hty, if_neg hn]
        rw [if_pos hty, if_neg hn]
    · simp only [PSU.saveOne, PSU.resolveDirSize, Entry.serialize]
      rw [if_neg hty, if_neg hty]

/-- C8: serializing an archive twice in a row with no mutation in between
yields byte-identical output: the in-place directory-size recompute and
file-size assignment performed by the first `save` are idempotent. -/
theorem c8_save_idempotent : ∀ entries : List Entry,
    (PSU.save ((PSU.save entries).1)).2 = (PSU.save entries).2 := by
  intro entries
  unfold PSU.save
  rw [PSU.saveLoop_spec entries.length entries]
  simp only [List.length_map, List.map_map]
  rw [PSU.saveLoop_spec]
  simp only [List.map_map]
  refine congrArg List.flatten (List.map_congr_left ?_)
  intro e _
  exact congrArg Prod.snd (PSU.saveOne_idem entries.length e)

/-- C2: `save` recomputes every true directory entry's size before that
entry is encoded — the output bytes are exactly the concatenation of each
entry's encoding after its size resolution — and in the resulting entry
list every directory-typed `Directory` entry named `"."` or `".."` holds
size 0 while every other one holds (entry count − 1), regardless of the
size it held before (including one read from a parsed buffer). -/
theorem c2_dir_size_recompute : ∀ entries : List Entry,
    (PSU.save entries).2 =
      (entries.map (fun e => (PSU.saveOne entries.length e).2)).flatten ∧
    (∀ (i : Nat) (e : Entry), entries[i]? = some e → e.kind = .directory →
      e.header.type = EType.DIRECTORY →
      (PSU.save entries).1[i]? = some
        { e with header := { e.header with
            size := if e.name = [46] ∨ e.name = [46, 46] then 0
                    else entries.length - 1 } }) := by
  intro entries
  constructor
  · unfold PSU.save
    rw [PSU.saveLoop_spec]
  · intro i e hi hkind hty
    obtain ⟨k, n, hdr, p, c⟩ := e
    simp only at hkind
    subst hkind
    simp only at hty
    unfold PSU.save
    rw [PSU.saveLoop_spec]
    simp only [List.getElem?_map, hi, Option.map_some']
    simp only [PSU.saveOne, PSU.resolveDirSize, Entry.serialize]
    rw [if_pos hty]
    by_cases hn : n = [46] ∨ n = [46, 46]
    · rw [if_pos hn, if_pos hn]
    · rw [if_neg hn, if_neg hn]

theorem PSU.index?_isSome_iff (entries : List Entry) (name : List Nat) :
    (PSU.index? entries name).isSome = true ↔
      ∃ e ∈ entries, e.name = name := by
  induction entries with
  | nil => simp [PSU.index?]
  | cons e es ih =>
    by_cases h : e.name = name
    · simp [PSU.index?, h]
    · simp only [PSU.index?, if_neg h, Option.isSome_map', List.mem_cons]
      rw [ih]
      constructor
      · rintro ⟨x, hx, hn⟩
        exact ⟨x, Or.inr hx, hn⟩
      · rintro ⟨x, hx | hx, hn⟩
        · exact absurd hn (by rw [hx]; exact h)
        · exact ⟨x, hx, hn⟩

theorem PSU.write_found (entries : List Entry) (name data : List Nat) :
    ∀ i, PSU.index? entries name = some i →
      ∃ e, entries[i]? = some e ∧
        PSU.write entries name data =
          entries.set i { e with
            content := some data,
            header := { e.header with size := data.length } } := by
  induction entries with
  | nil => intro i h; exact absurd h (by simp [PSU.index?])
  | cons e es ih =>
    intro i h
    by_cases he : e.name = name
    · rw [PSU.index?, if_pos he] at h
      obtain rfl : (0 : Nat) = i := by simpa using h
      refine ⟨e, by simp, ?_⟩
      rw [PSU.write, if_pos he]
      simp
    · rw [PSU.index?, if_neg he] at h
      cases hj : PSU.index? es name with
      | none => rw [hj] at h; simp at h
      | some j =>
        rw [hj] at h
        simp only [Option.map_some'] at h
        obtain rfl : j + 1 = i := by simpa using h
        obtain ⟨x, hx1, hx2⟩ := ih j hj
        refine ⟨x, by simpa using hx1, ?_⟩
        rw [PSU.write, if_neg he, hx2]
        simp

theorem PSU.write_absent (entries : List Entry) (name data : List Nat)
    (h : PSU.index? entries name = none) :
    PSU.write entries name data = entries ++ [File.new name data] := by
  induction entries with
  | nil => rfl
  | cons e es ih =>
    by_cases he : e.name = name
    · rw [PSU.index?, if_pos he] at h
      simp at h
    · rw [PSU.index?, if_neg he] at h
      rw [PSU.write, if_neg he]
      rw [ih (by simpa using h)]
      simp

/-- C6: `write(name, data)` on an archive that already holds an entry of
that name replaces the first such entry's content and `header.size` in
place (the list is the original one with only position `i` updated, so
the entry count is unchanged); on an archive with no entry of that name
it appends one new `File` entry at the end, growing the count by exactly
one.  An entry of the name exists precisely when the lookup index is
`some`. -/
theorem c6_write_lookup : ∀ (entries : List Entry) (name data : List Nat),
    ((PSU.index? entries name).isSome = true ↔
      ∃ e ∈ entries, e.name = name) ∧
    (∀ i, PSU.index? entries name = some i →
      (PSU.write entries name data).length = entries.length ∧
      ∃ e, entries[i]? = some e ∧
        PSU.write entries name data =
          entries.set i { e with
            content := some data,
            header := { e.header with size := data.length } }) ∧
    (PSU.index? entries name = none →
      PSU.write entries name data = entries ++ [File.new name data] ∧
      (PSU.write entries name data).length = entries.length + 1 ∧
      (File.new name data).kind = .file ∧
      (File.new name data).header.type = EType.FILE) := by
  intro entries name data
  refine ⟨PSU.index?_isSome_iff entries name, ?_, ?_⟩
  · intro i hi
    obtain ⟨e, h1, h2⟩ := PSU.write_found entries name data i hi
    refine ⟨?_, e, h1, h2⟩
    rw [h2]
    simp
  · intro hn
    have h := PSU.write_absent entries name data hn
    refine ⟨h, ?_, rfl, rfl⟩
    rw [h]
    simp

theorem c6_write_lookup_witness :
    (PSU.write [File.new [97] [1, 2]] [97] [5]).length = 1 ∧
    (PSU.write [File.new [97] [1, 2]] [98] [5]).length = 1 + 1 :=
  ⟨((c6_write_lookup [File.new [97] [1, 2]] [97] [5]).2.1 0 rfl).1,
   ((c6_write_lookup [File.new [97] [1, 2]] [98] [5]).2.2 rfl).2.1⟩

/-- A fixed valid timestamp for the concrete archives the witnesses use. -/
def wTime : DateTime := ⟨2024, 1, 1, 0, 0, 0⟩

/-- A concrete root `Directory` entry (stale size 99, to be recomputed). -/
def wRoot : Entry :=
  ⟨.directory, [109, 121], ⟨EType.DIRECTORY, 99, wTime, wTime, 0, 0, 0, 0⟩,
    List.replicate 32 0, none⟩

/-- A concrete `"."` sentinel `Directory` entry (stale size 7). -/
def wDot : Entry :=
  ⟨.directory, [46], ⟨EType.DIRECTORY, 7, wTime, wTime, 0, 0, 0, 0⟩,
    List.replicate 32 0, none⟩

/-- A concrete `File` entry with three content bytes (stale size 9). -/
def wFile : Entry :=
  ⟨.file, [102], ⟨EType.FILE, 9, wTime, wTime, 0, 0, 0, 0⟩,
    List.replicate 32 0, some [1, 2, 3]⟩

/-- A concrete three-entry archive. -/
def wArch : List Entry := [wRoot, wDot, wFile]

theorem c2_dir_size_recompute_witness :
    (PSU.save wArch).1[0]? = some { wRoot with header := { wRoot.header with
      size := if wRoot.name = [46] ∨ wRoot.name = [46, 46] then 0
              else wArch.length - 1 } } :=
  (c2_dir_size_recompute wArch).2 0 wRoot rfl rfl rfl

theorem parseEntries_nil : parseEntries ([] : List Nat) = .ok [] := by
  rw [parseEntries]
  simp

theorem mkDatetime_ok_valid {y mo d hh mi s : Nat} {t : DateTime}
    (h : mkDatetime y mo d hh mi s = .ok t) : t.Valid := by
  simp only [mkDatetime] at h
  split at h
  · cases h
    assumption
  · exact absurd h (by simp)

/-- C9: header decode of an exactly-32-byte buffer succeeds only when
both embedded timestamp sub-records denote valid calendar date-times
(month 1..12, day valid for that month and year, hour ≤ 23, minute and
second ≤ 59, year ≥ 1 — `DateTime.Valid`, the CPython `datetime`
validation), and some 32-byte inputs violating this make decode raise
(`ValueError` from `datetime`) even though enough bytes were supplied —
e.g. 32 zero bytes, whose year field is 0. -/
theorem c9_header_decode_dates :
    (∀ (data : List Nat) (h : Header), data.length = 32 →
      Header.deserialize data = .ok h →
      h.created.Valid ∧ h.modified.Valid) ∧
    (∃ data : List Nat, data.length = 32 ∧
      Header.deserialize data = .error PSUError.valueError) := by
  constructor
  · intro data h hlen hok
    unfold Header.deserialize at hok
    rw [if_pos hlen] at hok
    split at hok
    · exact absurd hok (by simp)
    · split at hok
      · exact absurd hok (by simp)
      · cases hok
        constructor
        · exact mkDatetime_ok_valid (by assumption)
        · exact mkDatetime_ok_valid (by assumption)
  · exact ⟨List.replicate 32 0, by decide, by decide⟩

theorem c9_header_decode_dates_witness :
    wRoot.header.created.Valid ∧ wRoot.header.modified.Valid :=
  c9_header_decode_dates.1 (Header.serialize wRoot.header) wRoot.header
    (Header.length_serialize _) (by decide)

/-- C10: when a FILE entry's `header.size` exceeds the bytes remaining
after the name field, entry decode does not fail: it returns a `File`
whose content is exactly the remaining bytes (fewer than `header.size`),
reports a consumed count computed from `header.size` that points past
the end of the buffer, and the archive parse loop therefore ends with
just that entry. -/
theorem c10_truncated_file :
    ∀ (data : List Nat) (hdr : Header),
      512 ≤ data.length →
      Header.deserialize (data.take 32) = .ok hdr →
      hdr.type = EType.FILE →
      utf8Valid ((data.drop 64).take 448) = true →
      data.length - 512 < hdr.size →
      Entry.deserialize data = .ok
        (⟨.file, rstripZeros ((data.drop 64).take 448), hdr,
          (data.drop 32).take 32, some (data.drop 512)⟩,
         512 + (hdr.size + File.getContentPaddingSize hdr.size)) ∧
      data.length < 512 + (hdr.size + File.getContentPaddingSize hdr.size) ∧
      (data.drop 512).length < hdr.size ∧
      parseEntries data = .ok
        [⟨.file, rstripZeros ((data.drop 64).take 448), hdr,
          (data.drop 32).take 32, some (data.drop 512)⟩] := by
  intro data hdr h512 hh hty hutf hsz
  have hcontent : (data.drop 512).take hdr.size = data.drop 512 :=
    List.take_of_length_le (by simp only [List.length_drop]; omega)
  have hover : data.length <
      512 + (hdr.size + File.getContentPaddingSize hdr.size) := by omega
  have hdeser : Entry.deserialize data = .ok
      (⟨.file, rstripZeros ((data.drop 64).take 448), hdr,
        (data.drop 32).take 32, some (data.drop 512)⟩,
       512 + (hdr.size + File.getContentPaddingSize hdr.size)) := by
    unfold Entry.deserialize
    rw [hh]
    unfold getName
    rw [List.take_take]
    simp only [Nat.min_self]
    rw [if_pos hutf]
    dsimp only
    rw [if_pos hty, hcontent]
  refine ⟨hdeser, hover, by simp only [List.length_drop]; omega, ?_⟩
  rw [parseEntries]
  rw [dif_neg (by intro hc; rw [hc] at h512; simp at h512)]
  split
  · rename_i e heq
    rw [hdeser] at heq
    cases heq
  · rename_i entry size heq
    rw [hdeser] at heq
    injection heq with heq1
    injection heq1 with he hs
    subst he
    subst hs
    rw [List.drop_eq_nil_of_le (by omega), parseEntries_nil]

/-- A concrete buffer declaring a 9-byte FILE payload but carrying only
3 bytes after the 512-byte preamble. -/
def cbuf10 : List Nat :=
  Header.serialize wFile.header ++ List.replicate 32 0 ++
    List.replicate 448 0 ++ [7, 7, 7]

theorem c10_truncated_file_witness :
    (cbuf10.drop 512).length < wFile.header.size :=
  (c10_truncated_file cbuf10 wFile.header (by decide) (by decide) rfl
    (by decide) (by decide)).2.2.1

theorem Header.deserialize_ok_length {l : List Nat} {h : Header}
    (hok : Header.deserialize l = .ok h) : l.length = 32 := by
  unfold Header.deserialize at hok
  split at hok
  · assumption
  · exact absurd hok (by simp)

/-- A concrete buffer whose first entry has the unknown type value 1 and
whose name field starts with the byte `0xFF` (invalid in UTF-8). -/
def cbuf4 : List Nat :=
  Header.serialize ⟨1, 0, wTime, wTime, 0, 0, 0, 0⟩ ++ List.replicate 32 0 ++
    (255 :: List.replicate 447 0)

/-- C4 counterexample: a buffer whose first entry's decoded header type
is 1 — neither DIRECTORY (0x8427) nor FILE (0x8497) — on which entry
decode fails with the `UnicodeDecodeError` of the name decode performed
before the type dispatch, not with `UnknownEntryType` as the claim
states. -/
theorem c4_counterexample :
    Header.deserialize (cbuf4.take 32) =
      .ok ⟨1, 0, wTime, wTime, 0, 0, 0, 0⟩ ∧
    (1 : Nat) ≠ EType.FILE ∧ (1 : Nat) ≠ EType.DIRECTORY ∧
    Entry.deserialize cbuf4 = .error .unicodeDecodeError :=
  ⟨by decide, by decide, by decide, by decide⟩

/-- C4 (amended): on every buffer whose first entry's decoded header
type is neither DIRECTORY (0x8427) nor FILE (0x8497) and whose 448-byte
name field is valid UTF-8, entry decode fails with `UnknownEntryType`
carrying the raw type value and the decoded name, and the failure aborts
the whole archive parse with the same error — no entry is skipped or
partially recovered.  (Without the valid-UTF-8 qualification the name
decode, which runs before the type dispatch, can fail first — see the
counterexample.) -/
theorem c4_unknown_type_amended :
    ∀ (data : List Nat) (hdr : Header),
      Header.deserialize (data.take 32) = .ok hdr →
      hdr.type ≠ EType.FILE →
      hdr.type ≠ EType.DIRECTORY →
      utf8Valid ((data.drop 64).take 448) = true →
      Entry.deserialize data = .error
        (.unknownEntryType hdr.type
          (rstripZeros ((data.drop 64).take 448))) ∧
      parseEntries data = .error
        (.unknownEntryType hdr.type
          (rstripZeros ((data.drop 64).take 448))) := by
  intro data hdr hh htyF htyD hutf
  have hlen : 32 ≤ data.length := by
    have := Header.deserialize_ok_length hh
    simp only [List.length_take] at this
    omega
  have hdeser : Entry.deserialize data = .error
      (.unknownEntryType hdr.type
        (rstripZeros ((data.drop 64).take 448))) := by
    unfold Entry.deserialize
    rw [hh]
    unfold getName
    rw [List.take_take]
    simp only [Nat.min_self]
    rw [if_pos hutf]
    dsimp only
    rw [if_neg htyF, if_neg htyD]
  refine ⟨hdeser, ?_⟩
  rw [parseEntries]
  rw [dif_neg (by intro hc; rw [hc] at hlen; simp at hlen)]
  split
  · rename_i e heq
    rw [hdeser] at heq
    injection heq with he
    rw [he]
  · rename_i entry size heq
    rw [hdeser] at heq
    cases heq

/-- Like `cbuf4` but with an all-NUL (valid UTF-8) name field. -/
def cbuf4v : List Nat :=
  Header.serialize ⟨1, 0, wTime, wTime, 0, 0, 0, 0⟩ ++ List.replicate 32 0 ++
    List.replicate 448 0

theorem c4_unknown_type_amended_witness :
    Entry.deserialize cbuf4v = .error
      (.unknownEntryType (⟨1, 0, wTime, wTime, 0, 0, 0, 0⟩ : Header).type
        (rstripZeros ((cbuf4v.drop 64).take 448))) ∧
    parseEntries cbuf4v = .error
      (.unknownEntryType (⟨1, 0, wTime, wTime, 0, 0, 0, 0⟩ : Header).type
        (rstripZeros ((cbuf4v.drop 64).take 448))) :=
  c4_unknown_type_amended cbuf4v ⟨1, 0, wTime, wTime, 0, 0, 0, 0⟩
    (by decide) (by decide) (by decide) (by decide)

/-- Python-object well-formedness of one entry. -/
def Entry.WF (e : Entry) : Prop :=
  (if e.kind = .file
   then e.header.type = EType.FILE ∧ e.content.isSome = true ∧
     (e.content.getD []).length < 4294967296
   else e.header.type = EType.DIRECTORY ∧ e.content = none) ∧
  utf8Valid e.name = true ∧ e.name.length ≤ 448 ∧
  e.name.getLast? ≠ some 0 ∧ e.padding.length = 32 ∧
  e.header.unk1 < 65536 ∧ e.header.sectorAddress < 65536 ∧
  e.header.unk2 < 65536 ∧ e.header.unk3 < 4294967296 ∧
  e.header.created.Valid ∧ e.header.modified.Valid

instance (e : Entry) : Decidable e.WF := by
  unfold Entry.WF; infer_instance

def PSU.WF (entries : List Entry) : Prop :=
  (∀ e ∈ entries, e.WF) ∧ entries.length ≤ 4294967296

instance (entries : List Entry) : Decidable (PSU.WF entries) := by
  unfold PSU.WF; infer_instance

theorem ljustZeros_length (n : List Nat) (h : n.length ≤ 448) :
    (ljustZeros n 448).length = 448 := by
  simp only [ljustZeros, List.length_append, List.length_replicate]
  omega

theorem deserialize_layout (hdr' : Header) (n p tail : List Nat)
    (hwfh : hdr'.WF) (hutf : utf8Valid n = true)
    (hlast : n.getLast? ≠ some 0) (hnlen : n.length ≤ 448)
    (hplen : p.length = 32) :
    Header.deserialize
        ((Header.serialize hdr' ++ p ++ ljustZeros n 448 ++ tail).take 32) =
      .ok hdr' ∧
    ((Header.serialize hdr' ++ p ++ ljustZeros n 448 ++ tail).drop 32).take 32
      = p ∧
    getName (((Header.serialize hdr' ++ p ++ ljustZeros n 448 ++ tail).drop
      64).take 448) = .ok n ∧
    (Header.serialize hdr' ++ p ++ ljustZeros n 448 ++ tail).drop 512
      = tail := by
  have hA := Header.length_serialize hdr'
  have hC := ljustZeros_length n hnlen
  simp only [List.append_assoc]
  refine ⟨?_, ?_, ?_, ?_⟩
  · rw [List.take_left' hA]
    exact Header.deserialize_serialize hdr' hwfh
  · rw [List.drop_left' hA, List.take_left' hplen]
  · rw [← List.append_assoc (Header.serialize hdr') p
      (ljustZeros n 448 ++ tail)]
    rw [List.drop_left' (by simp [hA, hplen])]
    rw [List.take_left' hC]
    exact getName_ljust n hutf hlast hnlen
  · rw [← List.append_assoc p (ljustZeros n 448) tail,
      ← List.append_assoc (Header.serialize hdr') (p ++ ljustZeros n 448)
        tail]
    rw [List.drop_left' (by simp [hA, hplen, hC])]

theorem Entry.deserialize_saveOne (total : Nat) (e : Entry) (rest : List Nat)
    (hwf : e.WF) (htot : total ≤ 4294967296) :
    Entry.deserialize ((PSU.saveOne total e).2 ++ rest) =
      .ok ((PSU.saveOne total e).1, (PSU.saveOne total e).2.length) := by
  obtain ⟨k, n, hdr, p, c⟩ := e
  obtain ⟨hk, hutf, hnlen, hlast, hplen, hu1, hsec, hu2, hu3, hcr, hmo⟩ := hwf
  dsimp only at hk hutf hnlen hlast hplen hu1 hsec hu2 hu3 hcr hmo
  cases k with
  | directory =>
    rw [if_neg (by decide)] at hk
    obtain ⟨hty, hcnone⟩ := hk
    subst hcnone
    by_cases hn : n = [46] ∨ n = [46, 46]
    · simp only [PSU.saveOne, PSU.resolveDirSize]
      rw [if_pos hty, if_pos hn]
      simp only [Entry.serialize]
      have hwfh : ({ hdr with size := 0 } : Header).WF :=
        ⟨by show hdr.type < 65536; rw [hty]; decide, hu1,
         by show (0 : Nat) < 4294967296; decide, hsec, hu2, hu3, hcr, hmo⟩
      obtain ⟨p1, p2, p3, p4⟩ :=
        deserialize_layout { hdr with size := 0 } n p rest hwfh hutf hlast
          hnlen hplen
      unfold Entry.deserialize
      simp only [Entry.baseSerialize]
      simp only [List.append_assoc] at p1 p2 p3 p4 ⊢
      rw [p1]
      dsimp only
      rw [p3]
      dsimp only
      rw [p2]
      rw [if_neg (by show ¬ hdr.type = EType.FILE; rw [hty]; decide)]
      rw [if_pos (by show hdr.type = EType.DIRECTORY; exact hty)]
      have hblen : (Header.serialize { hdr with size := 0 } ++
          (p ++ ljustZeros n 448)).length = 512 := by
        simp [Header.length_serialize, hplen, ljustZeros_length n hnlen]
      rw [hblen]
    · simp only [PSU.saveOne, PSU.resolveDirSize]
      rw [if_pos hty, if_neg hn]
      simp only [Entry.serialize]
      have hwfh : ({ hdr with size := total - 1 } : Header).WF :=
        ⟨by show hdr.type < 65536; rw [hty]; decide, hu1,
         by show total - 1 < 4294967296; omega, hsec, hu2, hu3, hcr, hmo⟩
      obtain ⟨p1, p2, p3, p4⟩ :=
        deserialize_layout { hdr with size := total - 1 } n p rest hwfh hutf
          hlast hnlen hplen
      unfold Entry.deserialize
      simp only [Entry.baseSerialize]
      simp only [List.append_assoc] at p1 p2 p3 p4 ⊢
      rw [p1]
      dsimp only
      rw [p3]
      dsimp only
      rw [p2]
      rw [if_neg (by show ¬ hdr.type = EType.FILE; rw [hty]; decide)]
      rw [if_pos (by show hdr.type = EType.DIRECTORY; exact hty)]
      have hblen : (Header.serialize { hdr with size := total - 1 } ++
          (p ++ ljustZeros n 448)).length = 512 := by
        simp [Header.length_serialize, hplen, ljustZeros_length n hnlen]
      rw [hblen]
  | file =>
    rw [if_pos rfl] at hk
    obtain ⟨hty, hsome, hclen⟩ := hk
    obtain ⟨cl, rfl⟩ : ∃ cl, c = some cl :=
      ⟨c.get hsome, (Option.some_get hsome).symm⟩
    dsimp only [Option.getD_some] at hclen
    simp only [PSU.saveOne, PSU.resolveDirSize]
    rw [if_neg (by show ¬ hdr.type = EType.DIRECTORY; rw [hty]; decide)]
    simp only [Entry.serialize, Option.getD_some]
    by_cases hlen0 : cl.length > 0
    · rw [if_pos hlen0]
      have hwfh : ({ hdr with size := cl.length } : Header).WF :=
        ⟨by show hdr.type < 65536; rw [hty]; decide, hu1,
         by show cl.length < 4294967296; exact hclen, hsec, hu2, hu3, hcr,
         hmo⟩
      obtain ⟨p1, p2, p3, p4⟩ :=
        deserialize_layout { hdr with size := cl.length } n p
          (cl ++ (List.replicate
            (File.getContentPaddingSize cl.length) 0 ++ rest))
          hwfh hutf hlast hnlen hplen
      unfold Entry.deserialize
      simp only [Entry.baseSerialize]
      simp only [List.append_assoc] at p1 p2 p3 p4 ⊢
      rw [p1]
      dsimp only
      rw [p3]
      dsimp only
      rw [p2, p4]
      rw [if_pos (by show hdr.type = EType.FILE; exact hty)]
      rw [List.take_left' (by rfl)]
      have hblen : (Header.serialize { hdr with size := cl.length } ++
          (p ++ (ljustZeros n 448 ++ (cl ++ List.replicate
            (File.getContentPaddingSize cl.length) 0)))).length =
          512 + (cl.length + File.getContentPaddingSize cl.length) := by
        simp [Header.length_serialize, hplen, ljustZeros_length n hnlen]
        omega
      rw [hblen]
    · have hcl : cl = [] := List.eq_nil_of_length_eq_zero (by omega)
      subst hcl
      rw [if_neg hlen0]
      simp only [List.length_nil]
      have hwfh0 : ({ hdr with size := 0 } : Header).WF :=
        ⟨by show hdr.type < 65536; rw [hty]; decide, hu1,
         by show (0 : Nat) < 4294967296; decide, hsec, hu2, hu3, hcr, hmo⟩
      obtain ⟨p1, p2, p3, p4⟩ :=
        deserialize_layout { hdr with size := 0 } n p rest hwfh0 hutf hlast
          hnlen hplen
      unfold Entry.deserialize
      simp only [Entry.baseSerialize]
      simp only [List.append_assoc] at p1 p2 p3 p4 ⊢
      rw [p1]
      dsimp only
      rw [p3]
      dsimp only
      rw [p2, p4]
      rw [if_pos (by show hdr.type = EType.FILE; exact hty)]
      rw [List.take_zero]
      have hblen : (Header.serialize { hdr with size := 0 } ++
          (p ++ ljustZeros n 448)).length = 512 := by
        simp [Header.length_serialize, hplen, ljustZeros_length n hnlen]
      rw [hblen]
      rfl

theorem parseEntries_saveLoop (total : Nat) (es : List Entry)
    (hwf : ∀ e ∈ es, e.WF) (htot : total ≤ 4294967296) :
    parseEntries ((PSU.saveLoop total es).2) =
      .ok ((PSU.saveLoop total es).1) := by
  induction es with
  | nil => exact parseEntries_nil
  | cons e es ih =>
    have hewf : e.WF := hwf e (by simp)
    have hrest : ∀ x ∈ es, x.WF := fun x hx => hwf x (by simp [hx])
    simp only [PSU.saveLoop]
    have hd := Entry.deserialize_saveOne total e ((PSU.saveLoop total es).2)
      hewf htot
    have hdlen : 512 ≤ (PSU.saveOne total e).2.length :=
      Entry.deserialize_size_ge hd
    rw [parseEntries]
    rw [dif_neg (by
      intro hc
      have := congrArg List.length hc
      simp only [List.length_append, List.length_nil] at this
      omega)]
    split
    · rename_i err heq
      rw [hd] at heq
      cases heq
    · rename_i entry size heq
      rw [hd] at heq
      injection heq with h1
      injection h1 with hentry hsize
      subst hentry
      subst hsize
      rw [List.drop_left]
      rw [ih hrest]

/-- C1: for every well-formed archive — entries are coherent Python
`File`/`Directory` objects, names are UTF-8 of at most 448 bytes with no
trailing NUL, padding blocks are 32 bytes, header fields fit their wire
widths, and the entry count and file content lengths fit the u32 size
field — parsing the bytes produced by `save` yields exactly the entry
list as it stands after `save`'s size-recompute pass: same entry count,
same names in order, same entry types, same content bytes, and same
directory header sizes (indeed, equal entry records). -/
theorem c1_parse_save_roundtrip : ∀ entries : List Entry,
    PSU.WF entries →
    parseEntries ((PSU.save entries).2) = .ok ((PSU.save entries).1) := by
  intro entries hwf
  obtain ⟨hall, hlen⟩ := hwf
  exact parseEntries_saveLoop entries.length entries hall hlen

theorem c1_parse_save_roundtrip_witness :
    parseEntries ((PSU.save wArch).2) = .ok ((PSU.save wArch).1) :=
  c1_parse_save_roundtrip wArch (by decide)

end PSUModel

